import Mathlib

set_option autoImplicit false

/-
Verification development for the Frappe Assistant Core MCP layer.

Embedded components (translated from the repository source):
 - frappe_assistant_core/mcp/server.py        (MCPServer: parse, route, serialize)
 - frappe_assistant_core/core/tool_registry.py (ToolRegistry: availability filtering)
 - client_packages/sse-mcp-bridge/sse-mcp-bridge/sse_mcp_bridge.py
   (SSEMCPBridge: POST buffering, SSE stream lifecycle, pending-request sweep)
-/

/--
Model of a Python runtime value as far as the MCP server manipulates one.
Scalars, lists and dicts mirror JSON-native Python values; pyDate, pyDecimal
and pyObj stand for non-JSON-native values (datetime/date, Decimal, arbitrary
custom objects), each carrying the string that str() returns for it.
Floats are not modelled (no claim involves them).
-/
inductive PyVal where
  | pyNone
  | pyBool (b : Bool)
  | pyInt (n : Int)
  | pyStr (s : String)
  | pyDate (s : String)
  | pyDecimal (s : String)
  | pyObj (s : String)
  | pyList (xs : List PyVal)
  | pyDict (kvs : List (PyVal × PyVal))

/-- Test whether an Except value is a success. -/
def exOk {ε α : Type} : Except ε α → Bool
  | .ok _ => true
  | .error _ => false

/-- Escape one character the way json.dumps escapes characters inside a
JSON string (quote, backslash and the common control characters; other
characters pass through unchanged; ensure-ascii escaping of non-ASCII
characters is not modelled since no claim depends on it). -/
def jsonQuoteChar (c : Char) : String :=
  if c = '"' then "\\\""
  else if c = '\\' then "\\\\"
  else if c = '\n' then "\\n"
  else if c = '\t' then "\\t"
  else if c = '\r' then "\\r"
  else String.singleton c

/-- Render a JSON string literal with quotes, as json.dumps does. -/
def jsonQuote (s : String) : String :=
  "\"" ++ String.join (s.toList.map jsonQuoteChar) ++ "\""

/--
Conversion of a Python dict key for json.dumps: keys of a basic type
(str, int, bool, None) are coerced to their JSON string form; any other
key raises TypeError because the default argument of json.dumps is only
consulted for values, never for dict keys, and skipkeys is left False
(CPython json documented behaviour).
-/
def dictKeyStr : PyVal → Except String String
  | .pyStr s => .ok s
  | .pyInt n => .ok (toString n)
  | .pyBool true => .ok "true"
  | .pyBool false => .ok "false"
  | .pyNone => .ok "null"
  | _ => .error "keys must be str, int, float, bool or None"

mutual
/--
Model of json.dumps(v, default=str) when useDefault is true and of plain
json.dumps(v) when it is false: an error value models the TypeError that
json.dumps raises.  Whitespace produced by the indent argument is not
modelled (it never affects success or failure, only separators).
-/
def dumpsVal (useDefault : Bool) : PyVal → Except String String
  | .pyNone => .ok "null"
  | .pyBool true => .ok "true"
  | .pyBool false => .ok "false"
  | .pyInt n => .ok (toString n)
  | .pyStr s => .ok (jsonQuote s)
  | .pyDate s =>
      if useDefault then .ok (jsonQuote s)
      else .error "Object of type date is not JSON serializable"
  | .pyDecimal s =>
      if useDefault then .ok (jsonQuote s)
      else .error "Object of type Decimal is not JSON serializable"
  | .pyObj s =>
      if useDefault then .ok (jsonQuote s)
      else .error "Object is not JSON serializable"
  | .pyList xs => do
      let parts ← dumpsElems useDefault xs
      .ok ("[" ++ String.intercalate ", " parts ++ "]")
  | .pyDict kvs => do
      let parts ← dumpsPairs useDefault kvs
      .ok ("\x7b" ++ String.intercalate ", " parts ++ "\x7d")

/-- Serialize the elements of a JSON array, failing if any element fails. -/
def dumpsElems (useDefault : Bool) : List PyVal → Except String (List String)
  | [] => .ok []
  | x :: xs => do
      let s ← dumpsVal useDefault x
      let rest ← dumpsElems useDefault xs
      .ok (s :: rest)

/-- Serialize the entries of a JSON object, failing on a non-basic key or
a failing value. -/
def dumpsPairs (useDefault : Bool) : List (PyVal × PyVal) → Except String (List String)
  | [] => .ok []
  | (k, v) :: kvs => do
      let ks ← dictKeyStr k
      let vs ← dumpsVal useDefault v
      let rest ← dumpsPairs useDefault kvs
      .ok ((jsonQuote ks ++ ": " ++ vs) :: rest)
end

mutual
/-- All dict keys nested anywhere inside the value are of a basic type
(str, int, bool, None), so json.dumps never rejects a key. -/
def goodKeysV : PyVal → Bool
  | .pyList xs => goodKeysL xs
  | .pyDict kvs => goodKeysP kvs
  | _ => true

/-- goodKeysV for every element of a list. -/
def goodKeysL : List PyVal → Bool
  | [] => true
  | x :: xs => goodKeysV x && goodKeysL xs

/-- Basic keys and goodKeysV values for every entry of a dict. -/
def goodKeysP : List (PyVal × PyVal) → Bool
  | [] => true
  | (k, v) :: kvs => exOk (dictKeyStr k) && goodKeysV v && goodKeysP kvs
end

mutual
/-- With the default=str fallback, serialization succeeds on every value
whose dict keys are all basic. -/
theorem dumpsVal_ok : ∀ (v : PyVal), goodKeysV v = true → exOk (dumpsVal true v) = true
  | .pyNone, _ => rfl
  | .pyBool true, _ => rfl
  | .pyBool false, _ => rfl
  | .pyInt _, _ => rfl
  | .pyStr _, _ => rfl
  | .pyDate _, _ => rfl
  | .pyDecimal _, _ => rfl
  | .pyObj _, _ => rfl
  | .pyList xs, h => by
      have hxs : goodKeysL xs = true := by simpa [goodKeysV] using h
      have hl := dumpsElems_ok xs hxs
      rw [dumpsVal]
      cases he : dumpsElems true xs with
      | ok parts => rfl
      | error e => rw [he] at hl; simp [exOk] at hl
  | .pyDict kvs, h => by
      have hkvs : goodKeysP kvs = true := by simpa [goodKeysV] using h
      have hl := dumpsPairs_ok kvs hkvs
      rw [dumpsVal]
      cases he : dumpsPairs true kvs with
      | ok parts => rfl
      | error e => rw [he] at hl; simp [exOk] at hl

/-- Element-wise serialization succeeds on lists with good keys. -/
theorem dumpsElems_ok : ∀ (xs : List PyVal), goodKeysL xs = true → exOk (dumpsElems true xs) = true
  | [], _ => rfl
  | x :: xs, h => by
      have hx : goodKeysV x = true := by
        have := h; simp [goodKeysL, Bool.and_eq_true] at this; exact this.1
      have hxs : goodKeysL xs = true := by
        have := h; simp [goodKeysL, Bool.and_eq_true] at this; exact this.2
      have h1 := dumpsVal_ok x hx
      have h2 := dumpsElems_ok xs hxs
      rw [dumpsElems]
      cases e1 : dumpsVal true x with
      | error e => rw [e1] at h1; simp [exOk] at h1
      | ok s =>
          cases e2 : dumpsElems true xs with
          | error e => rw [e2] at h2; simp [exOk] at h2
          | ok rest => rfl

/-- Entry-wise serialization succeeds on dict entry lists with good keys. -/
theorem dumpsPairs_ok : ∀ (kvs : List (PyVal × PyVal)), goodKeysP kvs = true → exOk (dumpsPairs true kvs) = true
  | [], _ => rfl
  | (k, v) :: kvs, h => by
      have hk : exOk (dictKeyStr k) = true := by
        have := h; simp [goodKeysP, Bool.and_eq_true] at this; exact this.1.1
      have hv : goodKeysV v = true := by
        have := h; simp [goodKeysP, Bool.and_eq_true] at this; exact this.1.2
      have hkvs : goodKeysP kvs = true := by
        have := h; simp [goodKeysP, Bool.and_eq_true] at this; exact this.2
      have h1 := dumpsVal_ok v hv
      have h2 := dumpsPairs_ok kvs hkvs
      rw [dumpsPairs]
      cases ek : dictKeyStr k with
      | error e => rw [ek] at hk; simp [exOk] at hk
      | ok ks =>
          cases e1 : dumpsVal true v with
          | error e => rw [e1] at h1; simp [exOk] at h1
          | ok vs =>
              cases e2 : dumpsPairs true kvs with
              | error e => rw [e2] at h2; simp [exOk] at h2
              | ok rest => rfl
end

/-- Generic association-list lookup with string keys (first match), modelling
Python dict lookup for the dicts whose keys the source keeps as strings. -/
def alookup {α : Type} : List (String × α) → String → Option α
  | [], _ => none
  | (k, v) :: rest, key => if k = key then some v else alookup rest key

/-- Python str() of a value, as used inside the server's f-strings.  The
repr-style rendering of containers (reachable only in the not-found and
method-not-found messages when the request carries a non-scalar name or
method, which no claim exercises) is abstracted to a placeholder. -/
def pyStrOf : PyVal → String
  | .pyStr s => s
  | .pyNone => "None"
  | .pyBool true => "True"
  | .pyBool false => "False"
  | .pyInt n => toString n
  | .pyDate s => s
  | .pyDecimal s => s
  | .pyObj s => s
  | .pyList _ => "<list repr>"
  | .pyDict _ => "<dict repr>"

/-- Lookup in a Python dict whose keys may be arbitrary values, by a string
key, as d.get(key) does: only str keys can equal the string key. -/
def rget : List (PyVal × PyVal) → String → Option PyVal
  | [], _ => none
  | (.pyStr s, v) :: rest, key => if s = key then some v else rget rest key
  | _ :: rest, key => rget rest key

/-- A raised Python exception, carrying str(e) and traceback.format_exc(). -/
structure PyError where
  msg : String
  trace : String

/-- Stand-in for the traceback.format_exc() text of an exception raised
inside the tools/call try block by the server itself (keyword expansion or
json.dumps); its exact content is runtime-dependent. -/
def internalTrace : String := "Traceback (most recent call last): <frames>"

/--
One entry of MCPServer._tool_registry: the dict built by MCPServer.tool /
MCPServer.add_tool with keys name, description, inputSchema, annotations, fn.
The invocable is modelled as a function from the keyword-argument dict to
either a value or a raised exception.  annotations is none when the source
stored None (no annotations given).
-/
structure Tool where
  name : String
  description : String
  inputSchema : PyVal
  annotations : Option PyVal
  fn : List (PyVal × PyVal) → Except PyError PyVal

/-- The tools/call result dict built at lines 327-353 of server.py. -/
def contentResult (txt : String) (isErr : Bool) : PyVal :=
  .pyDict [(.pyStr "content",
             .pyList [.pyDict [(.pyStr "type", .pyStr "text"),
                               (.pyStr "text", .pyStr txt)]]),
           (.pyStr "isError", .pyBool isErr)]

/-- The error text of the tools/call except branch (server.py line 351). -/
def errText (toolName : String) (e : PyError) : String :=
  "Error executing " ++ toolName ++ ": " ++ e.msg ++ "\n\nTraceback:\n" ++ e.trace

/-- Resolution of params.get("name") against the registry's string keys:
membership in the OrderedDict holds only for a str name equal to a key. -/
def lookupTool (reg : List (String × Tool)) : Option PyVal → Option Tool
  | some (.pyStr s) => alookup reg s
  | _ => none

/--
MCPServer._handle_tools_call (server.py lines 316-353): resolve the tool,
invoke it with the arguments dict as keyword parameters, pass string results
through verbatim, JSON-encode other results with default=str, and report any
exception raised inside the try block (the call itself, or json.dumps) as an
isError result.  A non-dict arguments value makes fn(**arguments) raise
TypeError inside the same try block.
-/
def handleToolsCall (reg : List (String × Tool)) (params : List (PyVal × PyVal)) : PyVal :=
  let nameVal := rget params "name"
  let nameStr := pyStrOf (nameVal.getD .pyNone)
  match lookupTool reg nameVal with
  | none => contentResult ("Tool '" ++ nameStr ++ "' not found") true
  | some tool =>
    let callRes : Except PyError PyVal :=
      match rget params "arguments" with
      | none => tool.fn []
      | some (.pyDict kvs) => tool.fn kvs
      | some _ => .error ⟨"argument after ** must be a mapping", internalTrace⟩
    match callRes with
    | .error e => contentResult (errText nameStr e) true
    | .ok (.pyStr s) => contentResult s false
    | .ok v =>
        match dumpsVal true v with
        | .ok txt => contentResult txt false
        | .error em => contentResult (errText nameStr ⟨em, internalTrace⟩) true

/-- MCPServer._handle_initialize (server.py lines 289-295). -/
def initializeResult (serverName : String) : PyVal :=
  .pyDict [(.pyStr "protocolVersion", .pyStr "2025-03-26"),
           (.pyStr "capabilities",
             .pyDict [(.pyStr "tools", .pyDict []),
                      (.pyStr "prompts", .pyDict []),
                      (.pyStr "resources", .pyDict [])]),
           (.pyStr "serverInfo",
             .pyDict [(.pyStr "name", .pyStr serverName),
                      (.pyStr "version", .pyStr "2.0.0")])]

/-- One entry of the tools/list result (server.py lines 301-312); the
annotations key is added only when the stored annotations are truthy. -/
def toolSpec (t : Tool) : PyVal :=
  match t.annotations with
  | some a => .pyDict [(.pyStr "name", .pyStr t.name),
                       (.pyStr "description", .pyStr t.description),
                       (.pyStr "inputSchema", t.inputSchema),
                       (.pyStr "annotations", a)]
  | none => .pyDict [(.pyStr "name", .pyStr t.name),
                     (.pyStr "description", .pyStr t.description),
                     (.pyStr "inputSchema", t.inputSchema)]

/-- MCPServer._handle_tools_list (server.py lines 297-314). -/
def toolsListResult (reg : List (String × Tool)) : PyVal :=
  .pyDict [(.pyStr "tools", .pyList (reg.map (fun p => toolSpec p.2)))]

/-- Python str.startswith, written over character lists. -/
def strStartsWith (s pre : String) : Bool := pre.toList.isPrefixOf s.toList

/-- MCPServer._is_notification (server.py lines 376-379):
data.get("method", "") is a str starting with the notifications/ prefix. -/
def isNotification (data : List (PyVal × PyVal)) : Bool :=
  match rget data "method" with
  | some (.pyStr m) => strStartsWith m "notifications/"
  | _ => false

/-- What MCPServer.handle decided for one parsed request, before the final
serialization step. -/
inductive HandleOutcome where
  | notifAck
  | errorEnvelope (idv : PyVal) (code : Int) (msg : String)
  | successEnvelope (idv : PyVal) (result : PyVal)

/-- The body dict of _success_response (server.py line 357). -/
def successEnvelopeVal (idv result : PyVal) : PyVal :=
  .pyDict [(.pyStr "jsonrpc", .pyStr "2.0"),
           (.pyStr "id", idv),
           (.pyStr "result", result)]

/-- The body dict of _error_response (server.py line 369). -/
def errorEnvelopeVal (idv : PyVal) (code : Int) (msg : String) : PyVal :=
  .pyDict [(.pyStr "jsonrpc", .pyStr "2.0"),
           (.pyStr "id", idv),
           (.pyStr "error", .pyDict [(.pyStr "code", .pyInt code),
                                     (.pyStr "message", .pyStr msg)])]

/-- A populated werkzeug Response as the server leaves it. -/
structure HttpResponse where
  statusCode : Nat
  body : Option String
  mimetype : Option String
deriving DecidableEq, Repr

/--
The serialization tail of MCPServer.handle: _success_response encodes the
envelope with default=str (line 360), _error_response without it (line 371),
a notification acknowledgement sets status 202 and no body (lines 153-155).
An error value models a json.dumps exception escaping the server
uncaught (there is no try around either response builder).
-/
def renderOutcome : HandleOutcome → Except String HttpResponse
  | .notifAck => .ok ⟨202, none, none⟩
  | .successEnvelope idv result => do
      let s ← dumpsVal true (successEnvelopeVal idv result)
      .ok ⟨200, some s, some "application/json"⟩
  | .errorEnvelope idv code msg => do
      let s ← dumpsVal false (errorEnvelopeVal idv code msg)
      .ok ⟨400, some s, some "application/json"⟩

/--
MCPServer.handle after a successful JSON parse of a dict body (server.py
lines 152-180): notification short-circuit, id validation, then method
routing.  The Except layer models exceptions Python would leave uncaught
(params.get on a non-dict params value in tools/call).
-/
def handleData (reg : List (String × Tool)) (serverName : String)
    (data : List (PyVal × PyVal)) : Except String HandleOutcome :=
  if isNotification data then .ok .notifAck
  else
    match rget data "id" with
    | none => .ok (.errorEnvelope .pyNone (-32600) "Invalid Request: missing id")
    | some .pyNone => .ok (.errorEnvelope .pyNone (-32600) "Invalid Request: missing id")
    | some reqId =>
      let methodVal := rget data "method"
      let paramsVal := (rget data "params").getD (.pyDict [])
      match methodVal with
      | some (.pyStr "initialize") => .ok (.successEnvelope reqId (initializeResult serverName))
      | some (.pyStr "tools/list") => .ok (.successEnvelope reqId (toolsListResult reg))
      | some (.pyStr "tools/call") =>
          match paramsVal with
          | .pyDict p => .ok (.successEnvelope reqId (handleToolsCall reg p))
          | _ => .error "AttributeError: params has no attribute get"
      | some (.pyStr "ping") => .ok (.successEnvelope reqId (.pyDict []))
      | m => .ok (.errorEnvelope reqId (-32601)
                    ("Method not found: " ++ pyStrOf (m.getD .pyNone)))

/-- An inbound HTTP request as MCPServer.handle sees it: the HTTP method and
the outcome of request.get_json(force=True), where an error value is a body
that failed to parse as JSON. -/
structure HttpRequest where
  httpMethod : String
  jsonBody : Except Unit PyVal

/--
MCPServer.handle entry (server.py lines 128-180): reject non-POST with 405,
answer a parse failure with -32700, crash (uncaught AttributeError) on a
parsed body that is not a JSON object, and otherwise route the dict.
-/
def handleHttp (reg : List (String × Tool)) (serverName : String)
    (req : HttpRequest) : Except String HttpResponse :=
  if req.httpMethod ≠ "POST" then .ok ⟨405, none, none⟩
  else
    match req.jsonBody with
    | .error _ => renderOutcome (.errorEnvelope .pyNone (-32700) "Parse error")
    | .ok (.pyDict fields) => do
        let outcome ← handleData reg serverName fields
        renderOutcome outcome
    | .ok _ => .error "AttributeError: body has no attribute get"

theorem exOk_exists {ε α : Type} (e : Except ε α) (h : exOk e = true) : ∃ a, e = .ok a := by
  cases e with
  | ok a => exact ⟨a, rfl⟩
  | error _ => simp [exOk] at h

theorem goodKeys_contentResult (txt : String) (b : Bool) :
    goodKeysV (contentResult txt b) = true := rfl

theorem renderSuccess_ok (idv result : PyVal)
    (hid : exOk (dumpsVal true idv) = true)
    (hres : exOk (dumpsVal true result) = true) :
    ∃ s, renderOutcome (.successEnvelope idv result)
      = .ok ⟨200, some s, some "application/json"⟩ := by
  obtain ⟨sid, hsid⟩ := exOk_exists _ hid
  obtain ⟨sr, hsr⟩ := exOk_exists _ hres
  refine ⟨"\x7b" ++ String.intercalate ", "
    [jsonQuote "jsonrpc" ++ ": " ++ jsonQuote "2.0",
     jsonQuote "id" ++ ": " ++ sid,
     jsonQuote "result" ++ ": " ++ sr] ++ "\x7d", ?_⟩
  simp only [renderOutcome, successEnvelopeVal]
  rw [dumpsVal, dumpsPairs]
  simp only [dictKeyStr, dumpsVal, hsid, hsr, dumpsPairs]
  rfl

/--
Claim C7: every parsed request whose method string starts with the
notification prefix notifications/ is acknowledged with status 202 and no
JSON-RPC body, whatever the params field holds and whether or not an id is
present (the notification check runs before the id check in
MCPServer.handle).
-/
theorem c7_notification_silence (reg : List (String × Tool)) (serverName : String)
    (data : List (PyVal × PyVal)) (m : String)
    (hm : rget data "method" = some (.pyStr m))
    (hpre : strStartsWith m "notifications/" = true) :
    handleData reg serverName data = .ok .notifAck ∧
    renderOutcome .notifAck = .ok ⟨202, none, none⟩ := by
  constructor
  · have hn : isNotification data = true := by simp [isNotification, hm, hpre]
    simp [handleData, hn]
  · rfl

/-- Witness for C7 at a concrete notification request with no id. -/
theorem c7_witness :
    handleData [] "frappe-assistant-core"
        [(.pyStr "method", .pyStr "notifications/initialized"),
         (.pyStr "params", .pyDict [])] = .ok .notifAck ∧
    renderOutcome .notifAck = .ok ⟨202, none, none⟩ :=
  c7_notification_silence [] "frappe-assistant-core" _ "notifications/initialized" rfl (by decide)

/--
Claim C3: a tools/call request whose params.name is not a key of the tool
registry produces a JSON-RPC success envelope (HTTP 200) whose result is
exactly the dict with content [(type text, text Tool '<name>' not found)]
and isError true; no JSON-RPC error object is produced.
-/
theorem c3_unknown_tool (reg : List (String × Tool)) (serverName : String)
    (data p : List (PyVal × PyVal)) (reqId : PyVal) (n : String)
    (hm : rget data "method" = some (.pyStr "tools/call"))
    (hid : rget data "id" = some reqId) (hne : reqId ≠ .pyNone)
    (hp : rget data "params" = some (.pyDict p))
    (hn : rget p "name" = some (.pyStr n))
    (hreg : alookup reg n = none)
    (hser : exOk (dumpsVal true reqId) = true) :
    handleData reg serverName data
      = .ok (.successEnvelope reqId (contentResult ("Tool '" ++ n ++ "' not found") true)) ∧
    ∃ s, handleHttp reg serverName ⟨"POST", .ok (.pyDict data)⟩
      = .ok ⟨200, some s, some "application/json"⟩ := by
  have hnotif : isNotification data = false := by simp [isNotification, hm]; rfl
  have hmain : handleData reg serverName data
      = .ok (.successEnvelope reqId (contentResult ("Tool '" ++ n ++ "' not found") true)) := by
    cases reqId <;>
      first
      | exact absurd rfl hne
      | simp [handleData, hnotif, hid, hm, hp, handleToolsCall, hn, lookupTool, hreg, pyStrOf]
  refine ⟨hmain, ?_⟩
  have hres := dumpsVal_ok (contentResult ("Tool '" ++ n ++ "' not found") true)
    (goodKeys_contentResult _ _)
  obtain ⟨s, hs⟩ := renderSuccess_ok reqId _ hser hres
  refine ⟨s, ?_⟩
  simp [handleHttp, hmain, Except.bind]
  exact hs

/-- Witness for C3: the spec's Scenario B request against an empty registry. -/
theorem c3_witness :
    handleData [] "frappe-assistant-core"
        [(.pyStr "jsonrpc", .pyStr "2.0"), (.pyStr "id", .pyInt 2),
         (.pyStr "method", .pyStr "tools/call"),
         (.pyStr "params", .pyDict [(.pyStr "name", .pyStr "nope"),
                                    (.pyStr "arguments", .pyDict [])])]
      = .ok (.successEnvelope (.pyInt 2) (contentResult ("Tool '" ++ "nope" ++ "' not found") true)) ∧
    ∃ s, handleHttp [] "frappe-assistant-core"
        ⟨"POST", .ok (.pyDict [(.pyStr "jsonrpc", .pyStr "2.0"), (.pyStr "id", .pyInt 2),
          (.pyStr "method", .pyStr "tools/call"),
          (.pyStr "params", .pyDict [(.pyStr "name", .pyStr "nope"),
                                     (.pyStr "arguments", .pyDict [])])])⟩
      = .ok ⟨200, some s, some "application/json"⟩ :=
  c3_unknown_tool [] "frappe-assistant-core" _ _ _ "nope" rfl rfl (by simp) rfl rfl rfl rfl

/--
Claim C1: when a registered tool raises while handling tools/call, the
server still produces a JSON-RPC success envelope (HTTP 200, a result field
and no error field); the result is the isError true content dict and its
text contains the exception message and the full traceback text.
-/
theorem c1_tool_exception_in_band (reg : List (String × Tool)) (serverName : String)
    (data p args : List (PyVal × PyVal)) (reqId : PyVal) (n : String) (tool : Tool) (e : PyError)
    (hm : rget data "method" = some (.pyStr "tools/call"))
    (hid : rget data "id" = some reqId) (hne : reqId ≠ .pyNone)
    (hp : rget data "params" = some (.pyDict p))
    (hn : rget p "name" = some (.pyStr n))
    (hargs : rget p "arguments" = some (.pyDict args))
    (hreg : alookup reg n = some tool)
    (hfn : tool.fn args = .error e)
    (hser : exOk (dumpsVal true reqId) = true) :
    handleData reg serverName data
      = .ok (.successEnvelope reqId (contentResult (errText n e) true)) ∧
    (∃ pre mid, errText n e = pre ++ (e.msg ++ (mid ++ e.trace))) ∧
    ∃ s, handleHttp reg serverName ⟨"POST", .ok (.pyDict data)⟩
      = .ok ⟨200, some s, some "application/json"⟩ := by
  have hnotif : isNotification data = false := by simp [isNotification, hm]; rfl
  have hmain : handleData reg serverName data
      = .ok (.successEnvelope reqId (contentResult (errText n e) true)) := by
    cases reqId <;>
      first
      | exact absurd rfl hne
      | simp [handleData, hnotif, hid, hm, hp, handleToolsCall, hn, hargs, lookupTool,
              hreg, hfn, pyStrOf]
  refine ⟨hmain, ⟨"Error executing " ++ n ++ ": ", "\n\nTraceback:\n", by
    simp [errText, String.append_assoc]⟩, ?_⟩
  have hres := dumpsVal_ok (contentResult (errText n e) true) (goodKeys_contentResult _ _)
  obtain ⟨s, hs⟩ := renderSuccess_ok reqId _ hser hres
  refine ⟨s, ?_⟩
  simp [handleHttp, hmain, Except.bind]
  exact hs

/-- A concrete tool whose invocable always raises, for the C1 witness. -/
def boomTool : Tool :=
  ⟨"boom", "always raises", .pyDict [], none,
   fun _ => .error ⟨"ValueError: boom", "Traceback (most recent call last): frame"⟩⟩

/-- Witness for C1 at a concrete raising tool. -/
theorem c1_witness :
    handleData [("boom", boomTool)] "frappe-assistant-core"
        [(.pyStr "jsonrpc", .pyStr "2.0"), (.pyStr "id", .pyInt 7),
         (.pyStr "method", .pyStr "tools/call"),
         (.pyStr "params", .pyDict [(.pyStr "name", .pyStr "boom"),
                                    (.pyStr "arguments", .pyDict [])])]
      = .ok (.successEnvelope (.pyInt 7)
          (contentResult (errText "boom"
            ⟨"ValueError: boom", "Traceback (most recent call last): frame"⟩) true)) ∧
    (∃ pre mid, errText "boom" ⟨"ValueError: boom", "Traceback (most recent call last): frame"⟩
      = pre ++ ("ValueError: boom" ++ (mid ++ "Traceback (most recent call last): frame"))) ∧
    ∃ s, handleHttp [("boom", boomTool)] "frappe-assistant-core"
        ⟨"POST", .ok (.pyDict [(.pyStr "jsonrpc", .pyStr "2.0"), (.pyStr "id", .pyInt 7),
          (.pyStr "method", .pyStr "tools/call"),
          (.pyStr "params", .pyDict [(.pyStr "name", .pyStr "boom"),
                                     (.pyStr "arguments", .pyDict [])])])⟩
      = .ok ⟨200, some s, some "application/json"⟩ :=
  c1_tool_exception_in_band [("boom", boomTool)] "frappe-assistant-core" _ _ _ _ "boom" boomTool
    ⟨"ValueError: boom", "Traceback (most recent call last): frame"⟩
    rfl rfl (by simp) rfl rfl rfl rfl rfl rfl

/-- A concrete tool returning a dict keyed by a date, for the C2
counterexample: json.dumps rejects non-basic dict keys even with
default=str, because default is never consulted for keys. -/
def dateKeyTool : Tool :=
  ⟨"dk", "returns a dict keyed by a date", .pyDict [], none,
   fun _ => .ok (.pyDict [(.pyDate "2020-01-01", .pyInt 1)])⟩

/--
Counterexample to claim C2 as stated: a tool returning the non-JSON-native
value dict with a date key is not rendered via string coercion; the
TypeError raised by json.dumps inside the tools/call try block turns the
call into an isError true result instead.
-/
theorem c2_counterexample :
    handleToolsCall [("dk", dateKeyTool)]
        [(.pyStr "name", .pyStr "dk"), (.pyStr "arguments", .pyDict [])]
      = contentResult (errText "dk"
          ⟨"keys must be str, int, float, bool or None", internalTrace⟩) true ∧
    ¬ ∃ txt, handleToolsCall [("dk", dateKeyTool)]
        [(.pyStr "name", .pyStr "dk"), (.pyStr "arguments", .pyDict [])]
      = contentResult txt false := by
  refine ⟨rfl, ?_⟩
  rintro ⟨txt, h⟩
  have h2 : contentResult (errText "dk"
      ⟨"keys must be str, int, float, bool or None", internalTrace⟩) true
      = contentResult txt false := by rw [← h]; rfl
  simp [contentResult] at h2

/--
Claim C2 as amended: for every tool return value all of whose dict keys are
of a basic type, response serialization is total: a string result passes
through verbatim, any other result JSON-encodes successfully (non-JSON-native
values such as dates, decimals and custom objects rendering as their
string-coerced quoted form, shown by the three trailing conjuncts), and the
top-level success envelope also serializes, giving HTTP 200.
-/
theorem c2_serialization (reg : List (String × Tool)) (serverName : String)
    (data p args : List (PyVal × PyVal)) (reqId : PyVal) (n : String) (tool : Tool) (v : PyVal)
    (hm : rget data "method" = some (.pyStr "tools/call"))
    (hid : rget data "id" = some reqId) (hne : reqId ≠ .pyNone)
    (hp : rget data "params" = some (.pyDict p))
    (hn : rget p "name" = some (.pyStr n))
    (hargs : rget p "arguments" = some (.pyDict args))
    (hreg : alookup reg n = some tool)
    (hfn : tool.fn args = .ok v)
    (hgood : goodKeysV v = true)
    (hser : exOk (dumpsVal true reqId) = true) :
    (∃ txt, ((v = .pyStr txt) ∨ dumpsVal true v = .ok txt) ∧
      handleData reg serverName data = .ok (.successEnvelope reqId (contentResult txt false)) ∧
      ∃ s, handleHttp reg serverName ⟨"POST", .ok (.pyDict data)⟩
        = .ok ⟨200, some s, some "application/json"⟩) ∧
    (∀ d, dumpsVal true (.pyDate d) = .ok (jsonQuote d)) ∧
    (∀ d, dumpsVal true (.pyDecimal d) = .ok (jsonQuote d)) ∧
    (∀ o, dumpsVal true (.pyObj o) = .ok (jsonQuote o)) := by
  have hnotif : isNotification data = false := by simp [isNotification, hm]; rfl
  have hcall : ∃ txt, ((v = .pyStr txt) ∨ dumpsVal true v = .ok txt) ∧
      handleToolsCall reg p = contentResult txt false := by
    cases v with
    | pyStr s =>
        exact ⟨s, Or.inl rfl, by
          simp [handleToolsCall, hn, hargs, lookupTool, hreg, hfn, pyStrOf]⟩
    | pyNone =>
        obtain ⟨txt, htxt⟩ := exOk_exists _ (dumpsVal_ok _ hgood)
        exact ⟨txt, Or.inr htxt, by
          simp [handleToolsCall, hn, hargs, lookupTool, hreg, hfn, pyStrOf, htxt]⟩
    | pyBool b =>
        obtain ⟨txt, htxt⟩ := exOk_exists _ (dumpsVal_ok _ hgood)
        exact ⟨txt, Or.inr htxt, by
          simp [handleToolsCall, hn, hargs, lookupTool, hreg, hfn, pyStrOf, htxt]⟩
    | pyInt i =>
        obtain ⟨txt, htxt⟩ := exOk_exists _ (dumpsVal_ok _ hgood)
        exact ⟨txt, Or.inr htxt, by
          simp [handleToolsCall, hn, hargs, lookupTool, hreg, hfn, pyStrOf, htxt]⟩
    | pyDate s =>
        obtain ⟨txt, htxt⟩ := exOk_exists _ (dumpsVal_ok _ hgood)
        exact ⟨txt, Or.inr htxt, by
          simp [handleToolsCall, hn, hargs, lookupTool, hreg, hfn, pyStrOf, htxt]⟩
    | pyDecimal s =>
        obtain ⟨txt, htxt⟩ := exOk_exists _ (dumpsVal_ok _ hgood)
        exact ⟨txt, Or.inr htxt, by
          simp [handleToolsCall, hn, hargs, lookupTool, hreg, hfn, pyStrOf, htxt]⟩
    | pyObj s =>
        obtain ⟨txt, htxt⟩ := exOk_exists _ (dumpsVal_ok _ hgood)
        exact ⟨txt, Or.inr htxt, by
          simp [handleToolsCall, hn, hargs, lookupTool, hreg, hfn, pyStrOf, htxt]⟩
    | pyList xs =>
        obtain ⟨txt, htxt⟩ := exOk_exists _ (dumpsVal_ok _ hgood)
        exact ⟨txt, Or.inr htxt, by
          simp [handleToolsCall, hn, hargs, lookupTool, hreg, hfn, pyStrOf, htxt]⟩
    | pyDict kvs =>
        obtain ⟨txt, htxt⟩ := exOk_exists _ (dumpsVal_ok _ hgood)
        exact ⟨txt, Or.inr htxt, by
          simp [handleToolsCall, hn, hargs, lookupTool, hreg, hfn, pyStrOf, htxt]⟩
  obtain ⟨txt, hv, hcall⟩ := hcall
  have hmain : handleData reg serverName data
      = .ok (.successEnvelope reqId (contentResult txt false)) := by
    cases reqId <;>
      first
      | exact absurd rfl hne
      | simp [handleData, hnotif, hid, hm, hp, hcall]
  refine ⟨⟨txt, hv, hmain, ?_⟩, fun d => rfl, fun d => rfl, fun o => rfl⟩
  have hres := dumpsVal_ok (contentResult txt false) (goodKeys_contentResult _ _)
  obtain ⟨s, hs⟩ := renderSuccess_ok reqId _ hser hres
  refine ⟨s, ?_⟩
  simp [handleHttp, hmain, Except.bind]
  exact hs

/-- A concrete tool returning a dict with a date value, for the C2 witness. -/
def dateValueTool : Tool :=
  ⟨"dv", "returns a dict with a date value", .pyDict [], none,
   fun _ => .ok (.pyDict [(.pyStr "when", .pyDate "2025-01-01")])⟩

/-- Witness for the amended C2 at a tool returning a date-valued dict. -/
theorem c2_witness :
    (∃ txt, ((PyVal.pyDict [(.pyStr "when", .pyDate "2025-01-01")] = .pyStr txt) ∨
        dumpsVal true (.pyDict [(.pyStr "when", .pyDate "2025-01-01")]) = .ok txt) ∧
      handleData [("dv", dateValueTool)] "frappe-assistant-core"
          [(.pyStr "jsonrpc", .pyStr "2.0"), (.pyStr "id", .pyInt 3),
           (.pyStr "method", .pyStr "tools/call"),
           (.pyStr "params", .pyDict [(.pyStr "name", .pyStr "dv"),
                                      (.pyStr "arguments", .pyDict [])])]
        = .ok (.successEnvelope (.pyInt 3) (contentResult txt false)) ∧
      ∃ s, handleHttp [("dv", dateValueTool)] "frappe-assistant-core"
          ⟨"POST", .ok (.pyDict [(.pyStr "jsonrpc", .pyStr "2.0"), (.pyStr "id", .pyInt 3),
            (.pyStr "method", .pyStr "tools/call"),
            (.pyStr "params", .pyDict [(.pyStr "name", .pyStr "dv"),
                                       (.pyStr "arguments", .pyDict [])])])⟩
        = .ok ⟨200, some s, some "application/json"⟩) ∧
    (∀ d, dumpsVal true (.pyDate d) = .ok (jsonQuote d)) ∧
    (∀ d, dumpsVal true (.pyDecimal d) = .ok (jsonQuote d)) ∧
    (∀ o, dumpsVal true (.pyObj o) = .ok (jsonQuote o)) :=
  c2_serialization [("dv", dateValueTool)] "frappe-assistant-core" _ _ _ _ "dv" dateValueTool
    (.pyDict [(.pyStr "when", .pyDate "2025-01-01")])
    rfl rfl (by simp) rfl rfl rfl rfl rfl rfl rfl

/-- Python substring containment (the in operator on str). -/
def strContains (hay needle : String) : Bool :=
  hay.toList.tails.any (fun t => needle.toList.isPrefixOf t)

/--
A Python annotation object as MCPServer._get_json_type (server.py lines
256-287) distinguishes them: Parameter.empty, the six types in type_map plus
typing.Dict, a string annotation, or any other (unmapped) annotation object.
-/
inductive Annot where
  | empty
  | tyStr
  | tyInt
  | tyFloat
  | tyBool
  | tyDict
  | tyList
  | tyTypingDict
  | strAnn (s : String)
  | otherAnn
deriving DecidableEq, Repr

/-- One parameter of a callable signature: its name, its annotation and
whether it carries a default value (param.default is not Parameter.empty). -/
structure SigParam where
  name : String
  annot : Annot
  hasDefault : Bool
deriving DecidableEq, Repr

/--
MCPServer._get_json_type (server.py lines 256-287): Parameter.empty maps to
string; a string annotation is matched by lowercase substring in source
order; any annotation not in type_map falls back to string via
type_map.get(annotation, "string").
-/
def getJsonType : Annot → String
  | .empty => "string"
  | .strAnn s =>
      let l := s.toLower
      if strContains l "str" then "string"
      else if strContains l "int" then "integer"
      else if strContains l "float" || strContains l "number" then "number"
      else if strContains l "bool" then "boolean"
      else if strContains l "dict" || strContains l "object" then "object"
      else if strContains l "list" || strContains l "array" then "array"
      else "string"
  | .tyStr => "string"
  | .tyInt => "integer"
  | .tyFloat => "number"
  | .tyBool => "boolean"
  | .tyDict => "object"
  | .tyList => "array"
  | .tyTypingDict => "object"
  | .otherAnn => "string"

/-- The dict MCPServer._generate_input_schema returns, keeping the two
computed fields (its type field is the constant "object"). -/
structure InputSchema where
  properties : List (String × String)
  required : List String
deriving DecidableEq, Repr

/--
MCPServer._generate_input_schema (server.py lines 238-254): one loop over
the signature's parameters builds properties in order and appends a name to
required exactly when the parameter has no default; written here as the
equivalent map over the list and map over its no-default sublist.
-/
def generateInputSchema (ps : List SigParam) : InputSchema :=
  { properties := ps.map (fun p => (p.name, getJsonType p.annot)),
    required := (ps.filter (fun p => !p.hasDefault)).map (fun p => p.name) }

/--
Claim C8: for any parameter list with distinct names (as a Python signature
guarantees), a parameter is listed in required exactly when it has no
default value; its property entry carries the inferred type; and an
unannotated, unmapped, or unrecognized-string annotation infers "string".
The inference is a total function by construction (it never throws).
-/
theorem c8_schema_inference (ps : List SigParam) (p : SigParam)
    (hmem : p ∈ ps)
    (hnodup : (ps.map (fun q => q.name)).Nodup) :
    (p.name ∈ (generateInputSchema ps).required ↔ p.hasDefault = false) ∧
    ((p.name, getJsonType p.annot) ∈ (generateInputSchema ps).properties) ∧
    (p.annot = .empty → getJsonType p.annot = "string") ∧
    (p.annot = .otherAnn → getJsonType p.annot = "string") ∧
    (∀ s, p.annot = .strAnn s →
      strContains s.toLower "str" = false → strContains s.toLower "int" = false →
      strContains s.toLower "float" = false → strContains s.toLower "number" = false →
      strContains s.toLower "bool" = false → strContains s.toLower "dict" = false →
      strContains s.toLower "object" = false → strContains s.toLower "list" = false →
      strContains s.toLower "array" = false → getJsonType p.annot = "string") := by
  refine ⟨?_, ?_, ?_, ?_, ?_⟩
  · constructor
    · intro hreq
      simp only [generateInputSchema, List.mem_map, List.mem_filter] at hreq
      obtain ⟨q, ⟨hqmem, hqdef⟩, hqname⟩ := hreq
      have hqp : q = p := List.inj_on_of_nodup_map hnodup hqmem hmem hqname
      subst hqp
      simpa using hqdef
    · intro hdef
      simp only [generateInputSchema, List.mem_map, List.mem_filter]
      exact ⟨p, ⟨hmem, by simp [hdef]⟩, rfl⟩
  · simp only [generateInputSchema, List.mem_map]
    exact ⟨p, hmem, rfl⟩
  · intro h; rw [h]; rfl
  · intro h; rw [h]; rfl
  · intro s h h1 h2 h3 h4 h5 h6 h7 h8 h9
    rw [h]
    simp [getJsonType, h1, h2, h3, h4, h5, h6, h7, h8, h9]

/-- Witness for C8 at a concrete three-parameter signature whose third
parameter has a default and an unrecognized string annotation. -/
theorem c8_witness :
    (("opts" : String) ∈ (generateInputSchema
        [⟨"doctype", .tyStr, false⟩, ⟨"limit", .tyInt, true⟩,
         ⟨"opts", .strAnn "Optional[Whatever]", true⟩]).required ↔ (true : Bool) = false) ∧
    ((("opts" : String), getJsonType (.strAnn "Optional[Whatever]")) ∈ (generateInputSchema
        [⟨"doctype", .tyStr, false⟩, ⟨"limit", .tyInt, true⟩,
         ⟨"opts", .strAnn "Optional[Whatever]", true⟩]).properties) ∧
    ((Annot.strAnn "Optional[Whatever]") = .empty → getJsonType (.strAnn "Optional[Whatever]") = "string") ∧
    ((Annot.strAnn "Optional[Whatever]") = .otherAnn → getJsonType (.strAnn "Optional[Whatever]") = "string") ∧
    (∀ s, (Annot.strAnn "Optional[Whatever]") = .strAnn s →
      strContains s.toLower "str" = false → strContains s.toLower "int" = false →
      strContains s.toLower "float" = false → strContains s.toLower "number" = false →
      strContains s.toLower "bool" = false → strContains s.toLower "dict" = false →
      strContains s.toLower "object" = false → strContains s.toLower "list" = false →
      strContains s.toLower "array" = false → getJsonType (.strAnn "Optional[Whatever]") = "string") :=
  c8_schema_inference
    [⟨"doctype", .tyStr, false⟩, ⟨"limit", .tyInt, true⟩,
     ⟨"opts", .strAnn "Optional[Whatever]", true⟩]
    ⟨"opts", .strAnn "Optional[Whatever]", true⟩
    (by simp) (by decide)

/-- One row of the FAC Tool Role Access child table as
ToolRegistry._get_tool_configurations loads it (role, allow_access). -/
structure RoleRow where
  role : String
  allowAccess : Bool
deriving DecidableEq, Repr

/-- One entry of the configs dict built by
ToolRegistry._get_tool_configurations (tool_registry.py lines 97-103). -/
structure ToolConfig where
  enabled : Bool
  roleAccessMode : String
  roleAccess : List RoleRow
deriving DecidableEq, Repr

/-- ToolRegistry._is_tool_enabled (tool_registry.py lines 113-129): a tool
with no configuration entry is enabled by default. -/
def isToolEnabled (configs : List (String × ToolConfig)) (toolName : String) : Bool :=
  match alookup configs toolName with
  | none => true
  | some c => c.enabled

/-- ToolRegistry._check_role_access (tool_registry.py lines 131-169): no
configuration or Allow All mode grants access; otherwise System Manager is
granted unconditionally, then the configured role access rows decide. -/
def checkRoleAccess (configs : List (String × ToolConfig)) (toolName : String)
    (userRoles : List String) : Bool :=
  match alookup configs toolName with
  | none => true
  | some c =>
    if c.roleAccessMode = "Allow All" then true
    else if userRoles.contains "System Manager" then true
    else c.roleAccess.any (fun a => userRoles.contains a.role && a.allowAccess)

/--
Claim C9: a user whose role set contains System Manager is never denied by
_check_role_access, whatever the tool's configuration holds; and a tool
name absent from the configuration map passes both the enabled check and
the role check for every user (default-open).
-/
theorem c9_system_manager_access (configs : List (String × ToolConfig))
    (toolName : String) (userRoles : List String) :
    (userRoles.contains "System Manager" = true →
      checkRoleAccess configs toolName userRoles = true) ∧
    (alookup configs toolName = none →
      isToolEnabled configs toolName = true ∧
      ∀ anyRoles, checkRoleAccess configs toolName anyRoles = true) := by
  constructor
  · intro hsm
    unfold checkRoleAccess
    cases hc : alookup configs toolName with
    | none => rfl
    | some c =>
        by_cases hmode : c.roleAccessMode = "Allow All"
        · simp [hmode]
        · simp [hmode, hsm]
          exact Or.inl (by simpa using hsm)
  · intro hnone
    refine ⟨by simp [isToolEnabled, hnone], fun anyRoles => by simp [checkRoleAccess, hnone]⟩

/-- Witness for C9: a System Manager passes a restrictive configuration,
and an unconfigured tool is open to any role set. -/
theorem c9_witness :
    ((["Sales User", "System Manager"] : List String).contains "System Manager" = true →
      checkRoleAccess [("run_sql", ⟨true, "Restricted", [⟨"DB Admin", true⟩]⟩)]
        "run_sql" ["Sales User", "System Manager"] = true) ∧
    (alookup [("run_sql", (⟨true, "Restricted", [⟨"DB Admin", true⟩]⟩ : ToolConfig))] "other_tool" = none →
      isToolEnabled [("run_sql", ⟨true, "Restricted", [⟨"DB Admin", true⟩]⟩)] "other_tool" = true ∧
      ∀ anyRoles, checkRoleAccess [("run_sql", ⟨true, "Restricted", [⟨"DB Admin", true⟩]⟩)]
        "other_tool" anyRoles = true) := by
  have h := c9_system_manager_access
    [("run_sql", ⟨true, "Restricted", [⟨"DB Admin", true⟩]⟩)] "run_sql"
    ["Sales User", "System Manager"]
  have h2 := c9_system_manager_access
    [("run_sql", ⟨true, "Restricted", [⟨"DB Admin", true⟩]⟩)] "other_tool"
    ["Sales User", "System Manager"]
  exact ⟨h.1, h2.2⟩

/--
One tool as ToolRegistry.get_available_tools examines it: the semantic
outcomes of its two configuration predicates (each may raise: an error
value), whether its instance requires a permission check, whether that
check raises, and the outcome of get_metadata().  These stand for the
external frappe calls the predicates make.
-/
structure ToolCheck where
  name : String
  enabledCheck : Except String Bool
  roleCheck : Except String Bool
  requiresPermission : Bool
  permissionRaises : Option String
  metadataResult : Except String PyVal

/-- ToolRegistry._is_tool_accessible (tool_registry.py lines 171-196): the
enabled check short-circuits, then the role check; an exception in either
propagates to the caller. -/
def isToolAccessible (t : ToolCheck) : Except String Bool :=
  match t.enabledCheck with
  | .error e => .error e
  | .ok en =>
    if !en then .ok false
    else
      match t.roleCheck with
      | .error e => .error e
      | .ok ra => if !ra then .ok false else .ok true

/-- ToolRegistry._check_tool_permission (tool_registry.py lines 431-439):
its own try/except returns False when check_permission raises, True when
the tool requires no permission or the check passes. -/
def checkToolPermission (t : ToolCheck) : Bool :=
  if t.requiresPermission then t.permissionRaises.isNone else true

/-- What one iteration of the get_available_tools loop (tool_registry.py
lines 245-261) contributes: the per-tool try/except turns any exception
from the accessibility check or from get_metadata into a skip. -/
def toolContribution (t : ToolCheck) : Option PyVal :=
  match isToolAccessible t with
  | .error _ => none
  | .ok false => none
  | .ok true =>
    if checkToolPermission t then
      match t.metadataResult with
      | .ok m => some m
      | .error _ => none
    else none

/-- ToolRegistry.get_available_tools (tool_registry.py lines 218-262) over
the already-plugin-filtered tool list. -/
def getAvailableTools (tools : List ToolCheck) : List PyVal :=
  tools.filterMap toolContribution

theorem toolContribution_eq_some (t : ToolCheck) (m : PyVal) :
    toolContribution t = some m ↔
    (t.enabledCheck = .ok true ∧ t.roleCheck = .ok true ∧
     checkToolPermission t = true ∧ t.metadataResult = .ok m) := by
  unfold toolContribution isToolAccessible
  cases he : t.enabledCheck with
  | error e => simp [he]
  | ok en =>
      cases en with
      | false => simp [he]
      | true =>
          cases hr : t.roleCheck with
          | error e => simp [he, hr]
          | ok ra =>
              cases ra with
              | false => simp [he, hr]
              | true =>
                  by_cases hperm : checkToolPermission t = true
                  · cases hm : t.metadataResult with
                    | error e => simp [he, hr, hperm, hm]
                    | ok mv => simp [he, hr, hperm, hm]
                  · simp [he, hr, hperm]

/--
Claim C6: a tool's metadata appears in the available-tools list exactly
when its enabled predicate returned true without raising, its role
predicate returned true without raising, its permission check passed (a
raising check_permission counts as failing), and get_metadata returned
without raising; so any predicate that raises excludes the tool
(fail-closed) rather than granting access.
-/
theorem c6_fail_closed_filtering (tools : List ToolCheck) (m : PyVal) :
    m ∈ getAvailableTools tools ↔
    ∃ t ∈ tools, t.enabledCheck = .ok true ∧ t.roleCheck = .ok true ∧
      checkToolPermission t = true ∧ t.metadataResult = .ok m := by
  simp only [getAvailableTools, List.mem_filterMap, toolContribution_eq_some]

/-- One PendingRequest of the bridge (sse_mcp_bridge.py lines 36-42): the
buffered JSON-RPC request is identified by its id, and the timestamp is the
time.time() of buffering.  The server url and auth token it also stores do
not influence any claimed behaviour and are omitted. -/
structure PendingReq where
  reqId : Nat
  timestamp : Nat
deriving DecidableEq, Repr

/--
The shared mutable state of SSEMCPBridge (sse_mcp_bridge.py lines 44-57):
connections and connection_metadata are dicts keyed by userContext (modelled
as total functions into Option, since Python dict entries here are only ever
read through membership tests and lookups); pending_requests maps a
userContext to its buffer (an absent key and an empty buffer behave
identically everywhere the source reads the dict, so both are the empty
list).  The per-connection asyncio.Queue is abstracted to its identity
(connId): delivered logs every response ever put on a connection queue as
(userContext, queue connId, request id) — the SSE loop then emits queued
responses in order, which no claim inspects further.
-/
structure BridgeState where
  connections : String → Option Nat
  connMeta : String → Option Nat
  pending : String → List PendingReq
  delivered : List (String × Nat × Nat)

/-- The bridge state at process start. -/
def emptyBridge : BridgeState := ⟨fun _ => none, fun _ => none, fun _ => [], []⟩

/-- SSEMCPBridge.connection_grace_period (5.0 seconds), with time in whole
seconds. -/
def gracePeriod : Nat := 5

/-- The methods mcp_sse_endpoint_post answers directly in the HTTP response
instead of routing through the connection/buffer machinery
(sse_mcp_bridge.py line 641). -/
def handshakeMethods : List String := ["initialize", "tools/list", "prompts/list", "resources/list"]

/-- What the POST handler returns to its HTTP caller: the direct JSONResponse
for a handshake method, or the 202 accepted acknowledgement (returned both
when the request was queued to a live stream and when it was buffered). -/
inductive PostOutcome where
  | direct (reqId : Nat)
  | accepted202 (reqId : Nat)
deriving DecidableEq, Repr

/--
The POST endpoint mcp_sse_endpoint_post (sse_mcp_bridge.py lines 612-695)
after successful credential validation: handshake methods are answered
directly; otherwise, with a live connection for the userContext the request
is processed and its response queued onto that connection (the remote
round-trip of process_mcp_request is atomic here, and a failed round-trip
still queues a response, so delivery is logged either way); with no live
connection a PendingRequest is appended to the user's buffer.  Both
non-handshake branches return 202.
-/
def stepPost (s : BridgeState) (user mthd : String) (reqId time : Nat) :
    BridgeState × PostOutcome :=
  if handshakeMethods.contains mthd then (s, .direct reqId)
  else
    match s.connections user with
    | some qid =>
        ({ s with delivered := s.delivered ++ [(user, qid, reqId)] }, .accepted202 reqId)
    | none =>
        ({ s with pending := fun u =>
             if u = user then s.pending u ++ [⟨reqId, time⟩] else s.pending u },
         .accepted202 reqId)

/--
The SSE stream opening, generate_sse_stream (sse_mcp_bridge.py lines
463-489): register the new queue and metadata under the userContext
(last-writer-wins), then process_pending_requests pops the user's whole
buffer and processes each request, queueing each response onto the
just-registered queue.  The endpoint event, stabilization sleep and
keepalive loop carry no state the claims observe; the open is modelled
atomically.
-/
def stepOpen (s : BridgeState) (user : String) (connId : Nat) : BridgeState :=
  { connections := fun u => if u = user then some connId else s.connections u,
    connMeta := fun u => if u = user then some connId else s.connMeta u,
    pending := fun u => if u = user then [] else s.pending u,
    delivered := s.delivered ++ (s.pending user).map (fun q => (user, connId, q.reqId)) }

/-- The finally block of generate_sse_stream (sse_mcp_bridge.py lines
523-529): on any stream termination, delete the connections and
connection_metadata entries of the userContext if present — with no check
that the entry still belongs to this stream. -/
def stepClose (s : BridgeState) (user : String) : BridgeState :=
  { s with connections := fun u => if u = user then none else s.connections u,
           connMeta := fun u => if u = user then none else s.connMeta u }

/-- SSEMCPBridge.cleanup_old_pending_requests (sse_mcp_bridge.py lines
349-361), run by cleanup_task every 10 seconds: keep only the pending
requests younger than the grace period (and drop empty buffers, which the
function-typed map renders as the empty list). -/
def stepSweep (s : BridgeState) (now : Nat) : BridgeState :=
  { s with pending := fun u =>
      (s.pending u).filter (fun q => decide (now - q.timestamp < gracePeriod)) }

/-- The events that touch the bridge's shared state, serialized by the
single-threaded asyncio event loop. -/
inductive BridgeEvent where
  | post (user mthd : String) (reqId time : Nat)
  | sseOpen (user : String) (connId : Nat)
  | sseClose (user : String)
  | sweep (time : Nat)

/-- One event against the bridge state. -/
def bridgeStep (s : BridgeState) : BridgeEvent → BridgeState
  | .post u m r t => (stepPost s u m r t).1
  | .sseOpen u c => stepOpen s u c
  | .sseClose u => stepClose s u
  | .sweep t => stepSweep s t

/-- A sequence of events against the bridge state. -/
def bridgeRun (s : BridgeState) (es : List BridgeEvent) : BridgeState :=
  es.foldl bridgeStep s

/-- How many responses for request id r were ever queued onto user u's SSE
stream. -/
def deliveredCount (s : BridgeState) (u : String) (r : Nat) : Nat :=
  s.delivered.countP (fun d => d.1 == u && d.2.2 == r)

/-- The entries for request id r inside user u's pending buffer. -/
def pendingR (s : BridgeState) (u : String) (r : Nat) : List PendingReq :=
  (s.pending u).filter (fun q => q.reqId == r)

/-- The event is a POST of the same userContext and request id. -/
def isPostOf (u : String) (r : Nat) : BridgeEvent → Prop
  | .post u' _ r' _ => u' = u ∧ r' = r
  | _ => False

/-- Events allowed between the buffered POST at time t and the SSE open of
userContext u in the C4 race scenario: sweeps strictly inside the grace
window of the POST, POSTs other than a re-POST of the same (user, id), and
stream events of other users. -/
def midOk (u : String) (r t : Nat) : BridgeEvent → Prop
  | .sweep s2 => s2 < t + gracePeriod
  | .post u' _ r' _ => ¬(u' = u ∧ r' = r)
  | .sseOpen u' _ => u' ≠ u
  | .sseClose _ => True

/-- Invariant between the buffered POST and the SSE open: u has no live
connection, its buffer holds exactly one entry for request r (the one
timestamped t), and nothing for (u, r) was delivered yet. -/
def MidInv (u : String) (r t : Nat) (s : BridgeState) : Prop :=
  s.connections u = none ∧ pendingR s u r = [⟨r, t⟩] ∧ deliveredCount s u r = 0

/-- Invariant after the open (or after a purge): the deliveries for (u, r)
number exactly c, and no pending entry for (u, r) remains. -/
def FinInv (u : String) (r c : Nat) (s : BridgeState) : Prop :=
  deliveredCount s u r = c ∧ pendingR s u r = []

theorem midInv_step (u : String) (r t : Nat) (s : BridgeState) (e : BridgeEvent)
    (he : midOk u r t e) (h : MidInv u r t s) : MidInv u r t (bridgeStep s e) := by
  obtain ⟨hconn, hpend, hcount⟩ := h
  cases e with
  | post u2 m2 r2 t2 =>
      simp only [midOk] at he
      simp only [bridgeStep, stepPost]
      split
      · exact ⟨hconn, hpend, hcount⟩
      · split
        · next qid hc2 =>
            refine ⟨hconn, hpend, ?_⟩
            have hne : u2 ≠ u := by
              intro hh
              rw [hh, hconn] at hc2
              cases hc2
            simp only [deliveredCount] at hcount ⊢
            rw [List.countP_append, hcount]
            simp [hne]
        · next hc2 =>
            refine ⟨hconn, ?_, hcount⟩
            simp only [pendingR] at hpend ⊢
            by_cases hu : u = u2
            · subst hu
              have hne : r2 ≠ r := by
                intro hr
                exact he ⟨rfl, hr⟩
              have hif : (if u = u then s.pending u ++ [(⟨r2, t2⟩ : PendingReq)] else s.pending u)
                  = s.pending u ++ [⟨r2, t2⟩] := if_pos rfl
              rw [hif, List.filter_append, hpend]
              simp [hne]
            · simp only [if_neg hu]
              exact hpend
  | sseOpen u2 c2 =>
      simp only [midOk] at he
      have hnu : ¬ u = u2 := Ne.symm he
      refine ⟨?_, ?_, ?_⟩
      · show (if u = u2 then some c2 else s.connections u) = none
        rw [if_neg hnu]
        exact hconn
      · show ((if u = u2 then [] else s.pending u).filter (fun q => q.reqId == r)) = _
        rw [if_neg hnu]
        exact hpend
      · show (s.delivered ++ (s.pending u2).map (fun q => (u2, c2, q.reqId))).countP _ = 0
        rw [List.countP_append]
        simp only [deliveredCount] at hcount
        rw [hcount]
        have hz : ((s.pending u2).map (fun q => (u2, c2, q.reqId))).countP
            (fun d => d.1 == u && d.2.2 == r) = 0 := by
          rw [List.countP_eq_zero]
          intro d hd
          rw [List.mem_map] at hd
          obtain ⟨q, hq, rfl⟩ := hd
          simp [he]
        rw [hz]
  | sseClose u2 =>
      refine ⟨?_, hpend, hcount⟩
      show (if u = u2 then none else s.connections u) = none
      by_cases hu : u = u2
      · rw [if_pos hu]
      · rw [if_neg hu]
        exact hconn
  | sweep s2 =>
      simp only [midOk] at he
      refine ⟨hconn, ?_, hcount⟩
      simp only [pendingR] at hpend ⊢
      show (((s.pending u).filter fun q => decide (s2 - q.timestamp < gracePeriod)).filter
        fun q => q.reqId == r) = _
      rw [List.filter_comm, hpend]
      have hk : decide (s2 - t < gracePeriod) = true := by
        have hg : gracePeriod = 5 := rfl
        rw [hg] at he ⊢
        simp only [decide_eq_true_eq]
        omega
      simp [hk]

theorem finInv_step (u : String) (r c : Nat) (s : BridgeState) (e : BridgeEvent)
    (he : ¬ isPostOf u r e) (h : FinInv u r c s) : FinInv u r c (bridgeStep s e) := by
  obtain ⟨hcount, hpend⟩ := h
  cases e with
  | post u2 m2 r2 t2 =>
      simp only [isPostOf] at he
      simp only [bridgeStep, stepPost]
      split
      · exact ⟨hcount, hpend⟩
      · split
        · next qid hc2 =>
            refine ⟨?_, hpend⟩
            simp only [deliveredCount] at hcount ⊢
            rw [List.countP_append, hcount]
            by_cases hu : u2 = u
            · have hr : r2 ≠ r := fun hr => he ⟨hu, hr⟩
              simp [hu, hr]
            · simp [hu]
        · next hc2 =>
            refine ⟨hcount, ?_⟩
            simp only [pendingR] at hpend ⊢
            by_cases hu : u = u2
            · subst hu
              have hif : (if u = u then s.pending u ++ [(⟨r2, t2⟩ : PendingReq)] else s.pending u)
                  = s.pending u ++ [⟨r2, t2⟩] := if_pos rfl
              rw [hif, List.filter_append, hpend]
              have hr : r2 ≠ r := fun hr => he ⟨rfl, hr⟩
              simp [hr]
            · simp only [if_neg hu]
              exact hpend
  | sseOpen u2 c2 =>
      simp only [pendingR] at hpend
      refine ⟨?_, ?_⟩
      · show (s.delivered ++ (s.pending u2).map (fun q => (u2, c2, q.reqId))).countP _ = c
        rw [List.countP_append]
        simp only [deliveredCount] at hcount
        rw [hcount]
        have hz : ((s.pending u2).map (fun q => (u2, c2, q.reqId))).countP
            (fun d => d.1 == u && d.2.2 == r) = 0 := by
          rw [List.countP_eq_zero]
          intro d hd
          rw [List.mem_map] at hd
          obtain ⟨q, hq, rfl⟩ := hd
          by_cases hu : u2 = u
          · subst hu
            have hq2 := List.filter_eq_nil_iff.mp hpend q hq
            simp at hq2
            simp [hq2]
          · simp [hu]
        rw [hz]
        exact Nat.add_zero c
      · show ((if u = u2 then [] else s.pending u).filter fun q => q.reqId == r) = []
        by_cases hu : u = u2
        · rw [if_pos hu]
          rfl
        · rw [if_neg hu]
          exact hpend
  | sseClose u2 =>
      exact ⟨hcount, hpend⟩
  | sweep s2 =>
      refine ⟨hcount, ?_⟩
      simp only [pendingR] at hpend ⊢
      show (((s.pending u).filter fun q => decide (s2 - q.timestamp < gracePeriod)).filter
        fun q => q.reqId == r) = []
      rw [List.filter_comm, hpend]
      rfl

theorem midInv_run (u : String) (r t : Nat) (s : BridgeState) (es : List BridgeEvent)
    (hes : ∀ e ∈ es, midOk u r t e) (h : MidInv u r t s) :
    MidInv u r t (bridgeRun s es) := by
  induction es generalizing s with
  | nil => exact h
  | cons e es ih =>
      exact ih (bridgeStep s e) (fun e' he' => hes e' (List.mem_cons_of_mem _ he'))
        (midInv_step u r t s e (hes e (List.mem_cons_self _ _)) h)

theorem finInv_run (u : String) (r c : Nat) (s : BridgeState) (es : List BridgeEvent)
    (hes : ∀ e ∈ es, ¬ isPostOf u r e) (h : FinInv u r c s) :
    FinInv u r c (bridgeRun s es) := by
  induction es generalizing s with
  | nil => exact h
  | cons e es ih =>
      exact ih (bridgeStep s e) (fun e' he' => hes e' (List.mem_cons_of_mem _ he'))
        (finInv_step u r c s e (hes e (List.mem_cons_self _ _)) h)

theorem open_step_delivers (u : String) (r t cid : Nat) (s : BridgeState)
    (h : MidInv u r t s) :
    FinInv u r 1 (bridgeStep s (.sseOpen u cid)) ∧
    (u, cid, r) ∈ (bridgeStep s (.sseOpen u cid)).delivered := by
  obtain ⟨hconn, hpend, hcount⟩ := h
  simp only [pendingR] at hpend
  refine ⟨⟨?_, ?_⟩, ?_⟩
  · show (s.delivered ++ (s.pending u).map (fun q => (u, cid, q.reqId))).countP _ = 1
    rw [List.countP_append]
    simp only [deliveredCount] at hcount
    rw [hcount]
    rw [List.countP_map]
    have hfun : ((fun d => d.1 == u && d.2.2 == r) ∘ (fun q : PendingReq => (u, cid, q.reqId)))
        = (fun q : PendingReq => q.reqId == r) := by
      funext q
      simp [Function.comp]
    rw [hfun, List.countP_eq_length_filter, hpend]
    rfl
  · show ((if u = u then [] else s.pending u).filter fun q => q.reqId == r) = []
    rw [if_pos rfl]
    rfl
  · show (u, cid, r) ∈ s.delivered ++ (s.pending u).map (fun q => (u, cid, q.reqId))
    refine List.mem_append_right _ ?_
    have hmem : (⟨r, t⟩ : PendingReq) ∈ s.pending u := by
      have : (⟨r, t⟩ : PendingReq) ∈ (s.pending u).filter (fun q => q.reqId == r) := by
        rw [hpend]
        exact List.mem_singleton_self _
      exact List.mem_of_mem_filter this
    have := List.mem_map_of_mem (fun q : PendingReq => (u, cid, q.reqId)) hmem
    simpa using this

theorem mem_delivered_step (s : BridgeState) (e : BridgeEvent) (d : String × Nat × Nat)
    (hd : d ∈ s.delivered) : d ∈ (bridgeStep s e).delivered := by
  cases e with
  | post u2 m2 r2 t2 =>
      simp only [bridgeStep, stepPost]
      split
      · exact hd
      · split
        · exact List.mem_append_left _ hd
        · exact hd
  | sseOpen u2 c2 => exact List.mem_append_left _ hd
  | sseClose u2 => exact hd
  | sweep s2 => exact hd

theorem mem_delivered_run (s : BridgeState) (es : List BridgeEvent) (d : String × Nat × Nat)
    (hd : d ∈ s.delivered) : d ∈ (bridgeRun s es).delivered := by
  induction es generalizing s with
  | nil => exact hd
  | cons e es ih => exact ih (bridgeStep s e) (mem_delivered_step s e d hd)

theorem bridgeRun_append (s : BridgeState) (l1 l2 : List BridgeEvent) :
    bridgeRun s (l1 ++ l2) = bridgeRun (bridgeRun s l1) l2 :=
  List.foldl_append _ _ _ _

/--
Claim C4: a non-handshake POST for userContext u arriving before u's SSE
stream opens is buffered as a PendingRequest and acknowledged with 202;
provided every sweep before the stream opens fires strictly inside the
POST's grace window (otherwise C5 purges it), the open drains the buffer
and queues the response onto the newly registered stream exactly once —
and no later events (short of re-POSTing the same request id) change that
count.
-/
theorem c4_bridge_race (u m : String) (r t cid : Nat) (mids rest : List BridgeEvent)
    (hm : handshakeMethods.contains m = false)
    (hmid : ∀ e ∈ mids, midOk u r t e)
    (hrest : ∀ e ∈ rest, ¬ isPostOf u r e) :
    (stepPost emptyBridge u m r t).2 = .accepted202 r ∧
    (stepPost emptyBridge u m r t).1.pending u = [⟨r, t⟩] ∧
    deliveredCount (bridgeRun emptyBridge
      ([.post u m r t] ++ mids ++ [.sseOpen u cid] ++ rest)) u r = 1 ∧
    (u, cid, r) ∈ (bridgeRun emptyBridge
      ([.post u m r t] ++ mids ++ [.sseOpen u cid] ++ rest)).delivered := by
  have hm2 : ¬ m ∈ handshakeMethods := by simpa using hm
  have h202 : (stepPost emptyBridge u m r t).2 = .accepted202 r := by
    simp [stepPost, hm, hm2, emptyBridge]
  have hbuf : (stepPost emptyBridge u m r t).1.pending u = [⟨r, t⟩] := by
    simp [stepPost, hm, hm2, emptyBridge]
  have h1 : MidInv u r t (bridgeStep emptyBridge (.post u m r t)) := by
    refine ⟨?_, ?_, ?_⟩
    · show (stepPost emptyBridge u m r t).1.connections u = none
      simp [stepPost, hm, hm2, emptyBridge]
    · show ((stepPost emptyBridge u m r t).1.pending u).filter (fun q => q.reqId == r) = _
      rw [hbuf]
      simp
    · show ((stepPost emptyBridge u m r t).1.delivered).countP _ = 0
      simp [stepPost, hm, hm2, emptyBridge]
  have hdecomp : bridgeRun emptyBridge ([.post u m r t] ++ mids ++ [.sseOpen u cid] ++ rest)
      = bridgeRun (bridgeStep (bridgeRun (bridgeStep emptyBridge (.post u m r t)) mids)
          (.sseOpen u cid)) rest := by
    rw [show ([BridgeEvent.post u m r t] ++ mids ++ [.sseOpen u cid] ++ rest)
        = (([BridgeEvent.post u m r t] ++ mids) ++ [.sseOpen u cid]) ++ rest by simp]
    rw [bridgeRun_append, bridgeRun_append, bridgeRun_append]
    rfl
  have h2 := midInv_run u r t _ mids hmid h1
  obtain ⟨h3, hmem⟩ := open_step_delivers u r t cid _ h2
  have h4 := finInv_run u r 1 _ rest hrest h3
  have hmem2 := mem_delivered_run _ rest _ hmem
  rw [hdecomp]
  exact ⟨h202, hbuf, h4.1, hmem2⟩

/--
Claim C5: a PendingRequest whose age reaches the grace period is purged by
the periodic sweep (the user's buffer empties), and it is never delivered —
even if an SSE stream for its userContext opens later, whatever else
happens afterwards (short of re-POSTing the same request id).
-/
theorem c5_pending_expiry (u m : String) (r t s2 cid : Nat) (rest : List BridgeEvent)
    (hm : handshakeMethods.contains m = false)
    (hexp : t + gracePeriod ≤ s2)
    (hrest : ∀ e ∈ rest, ¬ isPostOf u r e) :
    (bridgeRun emptyBridge [.post u m r t, .sweep s2]).pending u = [] ∧
    deliveredCount (bridgeRun emptyBridge
      ([.post u m r t, .sweep s2, .sseOpen u cid] ++ rest)) u r = 0 := by
  have hm2 : ¬ m ∈ handshakeMethods := by simpa using hm
  have hbuf : (bridgeStep emptyBridge (.post u m r t)).pending u = [⟨r, t⟩] := by
    show (stepPost emptyBridge u m r t).1.pending u = _
    simp [stepPost, hm, hm2, emptyBridge]
  have hk : decide (s2 - t < gracePeriod) = false := by
    have hg : gracePeriod = 5 := rfl
    rw [hg] at hexp ⊢
    simp only [decide_eq_false_iff_not]
    omega
  have hswept : (bridgeRun emptyBridge [.post u m r t, .sweep s2]).pending u = [] := by
    show (stepSweep (bridgeStep emptyBridge (.post u m r t)) s2).pending u = []
    show ((bridgeStep emptyBridge (.post u m r t)).pending u).filter
      (fun q => decide (s2 - q.timestamp < gracePeriod)) = []
    rw [hbuf]
    simp [hk]
  refine ⟨hswept, ?_⟩
  have hfin : FinInv u r 0 (bridgeRun emptyBridge [.post u m r t, .sweep s2]) := by
    refine ⟨?_, ?_⟩
    · show ((bridgeRun emptyBridge [.post u m r t, .sweep s2]).delivered).countP _ = 0
      show ((stepSweep (bridgeStep emptyBridge (.post u m r t)) s2).delivered).countP _ = 0
      simp [stepSweep, bridgeStep, stepPost, hm, hm2, emptyBridge]
    · show ((bridgeRun emptyBridge [.post u m r t, .sweep s2]).pending u).filter
        (fun q => q.reqId == r) = []
      rw [hswept]
      rfl
  have hdecomp : bridgeRun emptyBridge ([.post u m r t, .sweep s2, .sseOpen u cid] ++ rest)
      = bridgeRun (bridgeRun emptyBridge [.post u m r t, .sweep s2]) (.sseOpen u cid :: rest) := by
    rw [show ([BridgeEvent.post u m r t, .sweep s2, .sseOpen u cid] ++ rest)
        = [BridgeEvent.post u m r t, .sweep s2] ++ (BridgeEvent.sseOpen u cid :: rest) by simp]
    rw [bridgeRun_append]
  rw [hdecomp]
  have hall : ∀ e ∈ (BridgeEvent.sseOpen u cid :: rest), ¬ isPostOf u r e := by
    intro e he
    rcases List.mem_cons.mp he with h | h
    · subst h
      simp [isPostOf]
    · exact hrest e h
  exact (finInv_run u r 0 _ _ hall hfin).1

/--
Claim C10: the teardown of any SSE stream for userContext u removes the
connections and connection_metadata entries for u unconditionally — in
particular after a second, newer stream for u registered its own queue, the
older stream's teardown still deletes u's entries, so no entry for u
remains and a subsequent non-handshake POST is buffered instead of being
queued to the still-open newer stream (its delivered log is unchanged).
-/
theorem c10_close_removes_unconditionally (s : BridgeState) (u : String) :
    ((stepClose s u).connections u = none ∧ (stepClose s u).connMeta u = none) ∧
    (∀ c1 c2 : Nat,
      (bridgeRun s [.sseOpen u c1, .sseOpen u c2, .sseClose u]).connections u = none ∧
      (bridgeRun s [.sseOpen u c1, .sseOpen u c2, .sseClose u]).connMeta u = none) ∧
    (∀ m r t2, handshakeMethods.contains m = false →
      (stepPost (stepClose s u) u m r t2).2 = .accepted202 r ∧
      (stepPost (stepClose s u) u m r t2).1.delivered = (stepClose s u).delivered ∧
      (stepPost (stepClose s u) u m r t2).1.pending u
        = (stepClose s u).pending u ++ [⟨r, t2⟩]) := by
  refine ⟨⟨?_, ?_⟩, ?_, ?_⟩
  · show (if u = u then none else s.connections u) = none
    rw [if_pos rfl]
  · show (if u = u then none else s.connMeta u) = none
    rw [if_pos rfl]
  · intro c1 c2
    constructor
    · show (if u = u then none else (stepOpen (stepOpen s u c1) u c2).connections u) = none
      rw [if_pos rfl]
    · show (if u = u then none else (stepOpen (stepOpen s u c1) u c2).connMeta u) = none
      rw [if_pos rfl]
  · intro m r t2 hm
    have hm2 : ¬ m ∈ handshakeMethods := by simpa using hm
    have hc : (stepClose s u).connections u = none := by
      show (if u = u then none else s.connections u) = none
      rw [if_pos rfl]
    refine ⟨?_, ?_, ?_⟩
    · simp [stepPost, hm, hm2, hc]
    · simp [stepPost, hm, hm2, hc]
    · simp [stepPost, hm, hm2, hc]

/-- Witness for C4: POST at time 0, sweep at time 4, stream open, then an
unrelated later POST; the response for request 1 is delivered exactly once. -/
theorem c4_witness :
    (stepPost emptyBridge "user_abc" "tools/call" 1 0).2 = .accepted202 1 ∧
    (stepPost emptyBridge "user_abc" "tools/call" 1 0).1.pending "user_abc" = [⟨1, 0⟩] ∧
    deliveredCount (bridgeRun emptyBridge
      ([.post "user_abc" "tools/call" 1 0] ++ [.sweep 4] ++ [.sseOpen "user_abc" 11]
        ++ [.post "user_abc" "tools/call" 2 9])) "user_abc" 1 = 1 ∧
    ("user_abc", 11, 1) ∈ (bridgeRun emptyBridge
      ([.post "user_abc" "tools/call" 1 0] ++ [.sweep 4] ++ [.sseOpen "user_abc" 11]
        ++ [.post "user_abc" "tools/call" 2 9])).delivered :=
  c4_bridge_race "user_abc" "tools/call" 1 0 11 [.sweep 4] [.post "user_abc" "tools/call" 2 9]
    (by decide)
    (fun e he => by
      rw [List.mem_singleton] at he
      subst he
      show (4 : Nat) < 0 + gracePeriod
      decide)
    (fun e he => by
      rw [List.mem_singleton] at he
      subst he
      show ¬ ((("user_abc" : String) = "user_abc") ∧ (2 : Nat) = 1)
      exact fun hx => absurd hx.2 (by decide))

/-- Witness for C5: POST at time 0, sweep at time 5 purges it; the stream
opening afterwards delivers nothing. -/
theorem c5_witness :
    (bridgeRun emptyBridge [.post "user_abc" "tools/call" 1 0, .sweep 5]).pending "user_abc" = [] ∧
    deliveredCount (bridgeRun emptyBridge
      ([.post "user_abc" "tools/call" 1 0, .sweep 5, .sseOpen "user_abc" 11] ++ [])) "user_abc" 1 = 0 :=
  c5_pending_expiry "user_abc" "tools/call" 1 0 5 11 []
    (by decide)
    (by show 0 + gracePeriod ≤ 5; decide)
    (fun e he => absurd he (List.not_mem_nil e))

/-- Witness for C10 at the concrete double-open-then-close scenario. -/
theorem c10_witness :
    ((stepClose emptyBridge "user_abc").connections "user_abc" = none ∧
     (stepClose emptyBridge "user_abc").connMeta "user_abc" = none) ∧
    ((bridgeRun emptyBridge [.sseOpen "user_abc" 1, .sseOpen "user_abc" 2,
        .sseClose "user_abc"]).connections "user_abc" = none ∧
     (bridgeRun emptyBridge [.sseOpen "user_abc" 1, .sseOpen "user_abc" 2,
        .sseClose "user_abc"]).connMeta "user_abc" = none) ∧
    ((stepPost (stepClose emptyBridge "user_abc") "user_abc" "tools/call" 1 0).2
        = .accepted202 1 ∧
     (stepPost (stepClose emptyBridge "user_abc") "user_abc" "tools/call" 1 0).1.delivered
        = (stepClose emptyBridge "user_abc").delivered ∧
     (stepPost (stepClose emptyBridge "user_abc") "user_abc" "tools/call" 1 0).1.pending "user_abc"
        = (stepClose emptyBridge "user_abc").pending "user_abc" ++ [⟨1, 0⟩]) :=
  ⟨(c10_close_removes_unconditionally emptyBridge "user_abc").1,
   (c10_close_removes_unconditionally emptyBridge "user_abc").2.1 1 2,
   (c10_close_removes_unconditionally emptyBridge "user_abc").2.2 "tools/call" 1 0 (by decide)⟩

